import Mathlib

/-!
Verification of the training/evaluation orchestration of the Jbeil repository.

Shallow embedding of `src/Jbeil/train_self_supervised.py` and
`src/Jbeil/utils/preprocess_data.py`.  Randomness (`random.sample`,
the negative samplers) is externalized: the outcome of a random draw is a
parameter, constrained by the contract the random primitive guarantees.
Per-node memory contents and metric values are abstract type parameters,
because the claims under study are about the orchestration (ordering,
snapshot/restore data flow, list bookkeeping), not about tensor numerics.
-/

namespace Jbeil

/-! ## Memory lifecycle (train_self_supervised.py, epoch loop and post-loop) -/

/-- Observable operations on the model memory and the evaluation phases that
mutate it, in the order the orchestrator performs them. -/
inductive MemOp where
  | init
  | train
  | detach
  | backupTrain
  | evalSeen
  | backupVal
  | restoreTrain
  | evalUnseen
  | evalTest
  | restoreVal
deriving DecidableEq

/-- One epoch of the training loop with `USE_MEMORY = True`
(train_self_supervised.py lines 258-357), over an abstract memory type `M`.
`initMem` is `tgn.memory.__init_memory__()` (line 264), `trainGroup k` is the
memory mutation of the k-th gradient-accumulation group (lines 272-310),
`detachMem` is `tgn.memory.detach_memory()` (line 315), `valEval` and
`nnValEval` are the memory mutations of `eval_edge_prediction` on the
seen-node validation split (line 332) and the unseen-node validation split
(line 350).  `numGroups` is the number of iterations of the outer batch loop.
Returns the live memory at the end of the epoch together with the trace of
memory operations performed. -/
def runEpochMemory {M : Type} (initMem detachMem valEval nnValEval : M → M)
    (trainGroup : Nat → M → M) (numGroups : Nat) (m0 : M) : M × List MemOp :=
  let s0 : M × List MemOp := (initMem m0, [MemOp.init])
  let s1 := (List.range numGroups).foldl
    (fun acc k => (detachMem (trainGroup k acc.1), acc.2 ++ [MemOp.train, MemOp.detach])) s0
  let train_memory_backup := s1.1
  let s2 := (s1.1, s1.2 ++ [MemOp.backupTrain])
  let s3 := (valEval s2.1, s2.2 ++ [MemOp.evalSeen])
  let val_memory_backup := s3.1
  let s4 := (s3.1, s3.2 ++ [MemOp.backupVal])
  let s5 := (train_memory_backup, s4.2 ++ [MemOp.restoreTrain])
  let s6 := (nnValEval s5.1, s5.2 ++ [MemOp.evalUnseen])
  let s7 := (val_memory_backup, s6.2 ++ [MemOp.restoreVal])
  s7

/-- Post-loop protocol with `USE_MEMORY = True`
(train_self_supervised.py lines 413-460): `val_memory_backup =
tgn.memory.backup_memory()` (line 414), `tgn.memory.restore_memory(...)`
(line 426), `eval_edge_detection` on the unseen-node test split mutating
memory (`testEval`, line 429), `tgn.memory.restore_memory(...)` again
(line 459) immediately before `torch.save` (line 460).  Returns the live
memory at the moment of the final save and the operation trace. -/
def runPostTraining {M : Type} (testEval : M → M) (m : M) : M × List MemOp :=
  let val_memory_backup := m
  let s0 : M × List MemOp := (m, [MemOp.backupVal])
  let s1 := (val_memory_backup, s0.2 ++ [MemOp.restoreVal])
  let s2 := (testEval s1.1, s1.2 ++ [MemOp.evalTest])
  let s3 := (val_memory_backup, s2.2 ++ [MemOp.restoreVal])
  s3

/-! ## Data flow of `thresholdOpt` (lines 332, 350, 432) -/

/-- Per-epoch updates of the Python variable `thresholdOpt`: the seen-node
validation call (line 332) assigns it, then the unseen-node validation call
(line 350) assigns it again, overwriting the previous value. -/
def epochThreshold {α : Type} (seenThr nnThr : Nat → α) (_t : α) (e : Nat) : α :=
  let thresholdOpt := seenThr e
  let thresholdOpt := nnThr e
  thresholdOpt

/-- Value of `thresholdOpt` after `n` executed epochs, starting from `t0`. -/
def runEpochsThreshold {α : Type} (seenThr nnThr : Nat → α) (n : Nat) (t0 : α) : α :=
  (List.range n).foldl (epochThreshold seenThr nnThr) t0

/-- The threshold value passed to `eval_edge_detection` for unseen-node test
scoring (line 432) after `n` executed epochs. -/
def testThreshold {α : Type} (seenThr nnThr : Nat → α) (n : Nat) (t0 : α) : α :=
  runEpochsThreshold seenThr nnThr n t0

/-! ## Inductive node selection (lines 121-186) -/

/-- `OPTC_MALICIOUS_SRC_NODES` (line 178). -/
def OPTC_MALICIOUS_SRC_NODES : List Nat := [201, 402, 501]

/-- `LANL_MALICIOUS_SRC_NODES` (line 179). -/
def LANL_MALICIOUS_SRC_NODES : List Nat := [9660, 9910, 10957, 12637]

/-- `malicious_src_nodes` (line 181): chosen from the dataset name. -/
def malicious_src_nodes (data : String) : List Nat :=
  if data = "OPTC" then OPTC_MALICIOUS_SRC_NODES else LANL_MALICIOUS_SRC_NODES

/-- `nb_nodes` (line 182): total node count, chosen from the dataset name. -/
def nb_nodes (data : String) : Nat :=
  if data = "OPTC" then 975 else 15611

/-- The value `int(nb_nodes * 0.3)` (lines 127, 138).  Python truncates the
float product toward zero; at the two node counts the program uses (975 and
15611) this equals the rational floor `nb * 3 / 10`. -/
def percent30 (nb : Nat) : Nat := nb * 3 / 10

/-- The value `int(nb_nodes * 0.5)` (line 150); equals `nb * 5 / 10` at the
program's node counts. -/
def percent50 (nb : Nat) : Nat := nb * 5 / 10

/-- The population `set(range(1, nb_nodes)) - set(malicious_src_nodes)` used
by the `Exp1` branch (lines 129-131). -/
def availableNodesExp1 (data : String) : Finset Nat :=
  Finset.Ico 1 (nb_nodes data) \ (malicious_src_nodes data).toFinset

/-- The population `set(range(1, nb_nodes))` used by the `Exp2` and `Exp3`
branches (lines 140, 152). -/
def availableNodesFull (data : String) : Finset Nat :=
  Finset.Ico 1 (nb_nodes data)

/-- Contract of `random.sample(pop, k)`: the returned list has `k` pairwise
distinct elements, all drawn from `pop`. -/
def SampleDraw (pop : Finset Nat) (k : Nat) (l : List Nat) : Prop :=
  l.Nodup ∧ l.length = k ∧ ∀ x ∈ l, x ∈ pop

/-- The slice assignment `sample[: len(repl)] = torch.tensor(repl)`
(lines 142-144, 154-156), for `repl` no longer than `l`. -/
def overwriteFirst (repl l : List Nat) : List Nat :=
  repl ++ l.drop repl.length

/-- `compute_inductive_nodes(inductive_experiment, nb_nodes)` (lines 121-160).
The globals `malicious_src_nodes`/`nb_nodes` are resolved through `data`,
and the process random source `random.sample` is the parameter `sample`
(a function from population and draw size to the drawn list).  `Except.error`
models the uncaught `ValueError` of line 160; `Option` models the
`None`/tensor result. -/
def compute_inductive_nodes (data : String) (sample : Finset Nat → Nat → List Nat)
    (inductive_experiment : String) : Except String (Option (List Nat)) :=
  if inductive_experiment = "None" then
    Except.ok none
  else if inductive_experiment = "Exp1" then
    Except.ok (some (sample (availableNodesExp1 data) (percent30 (nb_nodes data))))
  else if inductive_experiment = "Exp2" then
    Except.ok (some (overwriteFirst (malicious_src_nodes data)
      (sample (availableNodesFull data) (percent30 (nb_nodes data)))))
  else if inductive_experiment = "Exp3" then
    Except.ok (some (overwriteFirst (malicious_src_nodes data)
      (sample (availableNodesFull data) (percent50 (nb_nodes data)))))
  else
    Except.error "Invalid experiment name."

/-- The population the branch for a recognized non-noop tag samples from. -/
def availableFor (data inductive_experiment : String) : Finset Nat :=
  if inductive_experiment = "Exp1" then availableNodesExp1 data else availableNodesFull data

/-- The draw size the branch for a recognized non-noop tag requests. -/
def percentFor (data inductive_experiment : String) : Nat :=
  if inductive_experiment = "Exp3" then percent50 (nb_nodes data)
  else percent30 (nb_nodes data)

/-! ## Edge splits and `apply_inductive_experiment` (lines 162-186) -/

/-- The five per-edge parallel arrays of an edge split (the `Data` object the
loader returns).  Timestamps and labels are floats in the source; their values
are irrelevant to the filtering logic, so they are abstract types. -/
structure EdgeData (α β : Type) where
  sources : List Nat
  destinations : List Nat
  timestamps : List α
  labels : List β
  edge_idxs : List Nat
deriving DecidableEq

/-- The parallel arrays have equal lengths. -/
def EdgeData.Aligned {α β : Type} (d : EdgeData α β) : Prop :=
  d.destinations.length = d.sources.length ∧
  d.timestamps.length = d.sources.length ∧
  d.labels.length = d.sources.length ∧
  d.edge_idxs.length = d.sources.length

/-- The boolean vector `keep_edges = ~mask` of lines 165-168: edge `e` is kept
iff neither `sources[e]` nor `destinations[e]` occurs in `sample`. -/
def keepMask (sample : List Nat) (sources destinations : List Nat) : List Bool :=
  List.zipWith (fun s d => !(sample.any (· == s) || sample.any (· == d))) sources destinations

/-- Boolean-mask indexing `arr[keep_edges]` (lines 170-174). -/
def maskSelect {γ : Type} : List Bool → List γ → List γ
  | b :: bs, x :: xs => if b then x :: maskSelect bs xs else maskSelect bs xs
  | _, _ => []

/-- `apply_inductive_experiment(data, sample)` (lines 162-176) for a non-None
tensor `sample`: all five arrays are indexed by the same `keep_edges` mask. -/
def apply_inductive_experiment {α β : Type} (data : EdgeData α β) (sample : List Nat) :
    EdgeData α β :=
  let keep := keepMask sample data.sources data.destinations
  { sources := maskSelect keep data.sources
    destinations := maskSelect keep data.destinations
    timestamps := maskSelect keep data.timestamps
    labels := maskSelect keep data.labels
    edge_idxs := maskSelect keep data.edge_idxs }

/-- Call-site semantics of `apply_inductive_experiment(train_data,
inductive_nodes)` (line 186), covering `inductive_nodes = None`.  PyTorch
evaluates `tensor == None` to the plain Python bool `False` (its comparison
dunders turn an unsupported operand into `NotImplemented`, and Python then
falls back to identity comparison), so line 165 calls `.any(1)` on a bool and
raises `AttributeError`.  This crash is modelled as an `Except.error`. -/
def applyInductiveNodes {α β : Type} (data : EdgeData α β)
    (inductive_nodes : Option (List Nat)) : Except String (EdgeData α β) :=
  match inductive_nodes with
  | none => Except.error "AttributeError: bool object has no attribute any"
  | some sample => Except.ok (apply_inductive_experiment data sample)

/-- Lines 185-186: compute the inductive node collection, then rewrite
`train_data`.  An exception raised by either step propagates (the script has
no handler), so on error the training split is never modified. -/
def inductiveStep {α β : Type} (data : String) (sample : Finset Nat → Nat → List Nat)
    (inductive_experiment : String) (train : EdgeData α β) : Except String (EdgeData α β) :=
  match compute_inductive_nodes data sample inductive_experiment with
  | Except.error e => Except.error e
  | Except.ok nodes => applyInductiveNodes train nodes

/-- One edge, as a row across the five parallel arrays. -/
structure EdgeRow (α β : Type) where
  source : Nat
  destination : Nat
  timestamp : α
  label : β
  edge_idx : Nat
deriving DecidableEq

/-- Rows of five parallel arrays (truncating at the shortest). -/
def toRows {α β : Type} : List Nat → List Nat → List α → List β → List Nat → List (EdgeRow α β)
  | s :: ss, d :: ds, t :: ts, l :: ls, e :: es =>
    ⟨s, d, t, l, e⟩ :: toRows ss ds ts ls es
  | _, _, _, _, _ => []

/-- Rows of an edge split. -/
def dataRows {α β : Type} (d : EdgeData α β) : List (EdgeRow α β) :=
  toRows d.sources d.destinations d.timestamps d.labels d.edge_idxs

/-- An edge survives the exclusion iff neither endpoint is in `sample`. -/
def keepEdge {α β : Type} (sample : List Nat) (r : EdgeRow α β) : Bool :=
  !(sample.any (· == r.source) || sample.any (· == r.destination))

/-! ## Batch partitioning (lines 243-306) -/

/-- `num_batch = math.ceil(num_instance / BATCH_SIZE)` (line 244). -/
def num_batch (num_instance BATCH_SIZE : Nat) : Nat :=
  (num_instance + BATCH_SIZE - 1) / BATCH_SIZE

/-- The outer-loop counters `range(0, nb, bpe)` (line 272). -/
def groupStarts (nb bpe : Nat) : List Nat :=
  List.range' 0 ((nb + bpe - 1) / bpe) bpe

/-- The sequence of `batch_idx` values processed (lines 272-284): members of
each gradient-accumulation group, where `batch_idx >= num_batch` is skipped by
the `continue` of line 284. -/
def processedBatchIndices (nb bpe : Nat) : List Nat :=
  (groupStarts nb bpe).flatMap (fun k =>
    (List.range bpe).filterMap (fun j => if k + j < nb then some (k + j) else none))

/-- Edge indices of one batch: `start_idx = batch_idx * BATCH_SIZE`,
`end_idx = min(num_instance, start_idx + BATCH_SIZE)` (lines 286-287), the
slice covering `[start_idx, end_idx)`. -/
def batchSlice (num_instance BATCH_SIZE batch_idx : Nat) : List Nat :=
  List.range' (batch_idx * BATCH_SIZE)
    (min num_instance (batch_idx * BATCH_SIZE + BATCH_SIZE) - batch_idx * BATCH_SIZE)

/-- All training-edge indices processed in one epoch, in processing order. -/
def processedEdgeIndices (num_instance BATCH_SIZE bpe : Nat) : List Nat :=
  (processedBatchIndices (num_batch num_instance BATCH_SIZE) bpe).flatMap
    (batchSlice num_instance BATCH_SIZE)

/-! ## Results artifact (lines 250-254, 319, 359-373) -/

/-- The dictionary written by `pickle.dump` (lines 364-370); these five keys
are exactly what the artifact persists.  Metric values are abstract. -/
structure ResultsArtifact (α : Type) where
  val_aps : List α
  new_nodes_val_aps : List α
  train_losses : List α
  epoch_times : List α
  total_epoch_times : List α
deriving DecidableEq

/-- The per-run accumulator lists (lines 250-254) plus the sequence of
artifact writes performed so far (each write overwrites `results_path`). -/
structure RunState (α : Type) where
  val_aps : List α
  new_nodes_val_aps : List α
  train_losses : List α
  epoch_times : List α
  total_epoch_times : List α
  writes : List (ResultsArtifact α)
deriving DecidableEq

/-- Metric bookkeeping of epoch `e`: `epoch_times.append` (line 319), the
three appends of lines 359-361, the `pickle.dump` of lines 364-370, and only
then `total_epoch_times.append` (line 373). -/
def epochRecord {α : Type} (valAp nnValAp meanLoss epochTime totalTime : Nat → α)
    (st : RunState α) (e : Nat) : RunState α :=
  let st := { st with epoch_times := st.epoch_times ++ [epochTime e] }
  let st := { st with new_nodes_val_aps := st.new_nodes_val_aps ++ [nnValAp e] }
  let st := { st with val_aps := st.val_aps ++ [valAp e] }
  let st := { st with train_losses := st.train_losses ++ [meanLoss e] }
  let st := { st with writes := st.writes ++
    [({ val_aps := st.val_aps, new_nodes_val_aps := st.new_nodes_val_aps,
        train_losses := st.train_losses, epoch_times := st.epoch_times,
        total_epoch_times := st.total_epoch_times } : ResultsArtifact α)] }
  { st with total_epoch_times := st.total_epoch_times ++ [totalTime e] }

/-- The run state after `n` completed epochs, starting from the empty lists
of lines 250-254. -/
def runEpochsResults {α : Type} (valAp nnValAp meanLoss epochTime totalTime : Nat → α)
    (n : Nat) : RunState α :=
  (List.range n).foldl (epochRecord valAp nnValAp meanLoss epochTime totalTime)
    ⟨[], [], [], [], [], []⟩

/-- The artifact contents of the write performed during epoch `e`. -/
def artifactAt {α : Type} (valAp nnValAp meanLoss epochTime totalTime : Nat → α)
    (e : Nat) : ResultsArtifact α :=
  { val_aps := (List.range (e + 1)).map valAp
    new_nodes_val_aps := (List.range (e + 1)).map nnValAp
    train_losses := (List.range (e + 1)).map meanLoss
    epoch_times := (List.range (e + 1)).map epochTime
    total_epoch_times := (List.range e).map totalTime }

/-! ## `reindex` (utils/preprocess_data.py lines 43-61) -/

/-- One row of the preprocessed dataframe: columns `u`, `i`, `ts`, `label`,
`idx`.  Timestamps and labels are floats in the source and are abstract
here; `u`, `i` are node ids and `idx` the edge index. -/
structure RawRow (α : Type) where
  u : Nat
  i : Nat
  ts : α
  label : α
  idx : Nat
deriving DecidableEq

/-- `df.col.max()` for a column of node ids. -/
def colMax (l : List Nat) : Nat := l.foldl max 0

/-- `df.col.min()` for a nonempty column of node ids. -/
def colMin (l : List Nat) : Nat :=
  match l with
  | [] => 0
  | x :: xs => xs.foldl min x

/-- The assertion `df.col.max() - df.col.min() + 1 == len(df.col.unique())`
(lines 46-47).  On an empty column, pandas produces `NaN` for max and min and
the comparison is false, so the check fails. -/
def contiguousCheck (l : List Nat) : Bool :=
  match l with
  | [] => false
  | _ :: _ => colMax l - colMin l + 1 == l.dedup.length

/-- The per-row effect of the bipartite branch (lines 49-55): `new_i = i +
upper_u` with `upper_u = df.u.max() + 1`, then `u += 1`, `i += 1`,
`idx += 1`. -/
def reindexRow {α : Type} (upper_u : Nat) (r : RawRow α) : RawRow α :=
  { u := r.u + 1, i := r.i + upper_u + 1, ts := r.ts, label := r.label, idx := r.idx + 1 }

/-- `reindex(df, bipartite)` (lines 43-61).  `none` models the `AssertionError`
of lines 46-47. -/
def reindex {α : Type} (df : List (RawRow α)) (bipartite : Bool) :
    Option (List (RawRow α)) :=
  if bipartite then
    if contiguousCheck (df.map RawRow.u) && contiguousCheck (df.map RawRow.i) then
      some (df.map (reindexRow (colMax (df.map RawRow.u) + 1)))
    else
      none
  else
    some (df.map fun r => { r with u := r.u + 1, i := r.i + 1, idx := r.idx + 1 })

/-! ## Concrete inputs used by witnesses and counterexamples -/

/-- A deterministic stand-in for `random.sample`: the `k` smallest candidate
ids `1, 2, ..., k`. -/
def wSample : Finset Nat → Nat → List Nat := fun _ k => List.range' 1 k

/-- A possible outcome of `random.sample(set(range(1, 975)), 292)` in which
the malicious node 402 is drawn at a position beyond the overwritten
three-element prefix. -/
def ceDraw : List Nat := List.range' 1 291 ++ [402]

/-- A random source whose draw is `ceDraw`. -/
def ceSample : Finset Nat → Nat → List Nat := fun _ _ => ceDraw

/-- A tiny aligned edge split. -/
def wData : EdgeData Nat Nat :=
  { sources := [1, 2, 3]
    destinations := [4, 5, 6]
    timestamps := [10, 11, 12]
    labels := [0, 0, 1]
    edge_idxs := [0, 1, 2] }

/-- An empty edge split. -/
def emptyData : EdgeData Nat Nat :=
  { sources := [], destinations := [], timestamps := [], labels := [], edge_idxs := [] }

/-- A two-row dataframe whose `u` and `i` columns are contiguous. -/
def wDf : List (RawRow Nat) :=
  [⟨0, 0, 5, 0, 0⟩, ⟨1, 1, 6, 0, 1⟩]

/-! ## Theorems -/

/-- The training loop threads memory and trace through the groups. -/
theorem epochFold_spec {M : Type} (detachMem : M → M) (trainGroup : Nat → M → M) :
    ∀ (l : List Nat) (m : M) (tr : List MemOp),
      l.foldl (fun acc k =>
          (detachMem (trainGroup k acc.1), acc.2 ++ [MemOp.train, MemOp.detach])) (m, tr)
        = (l.foldl (fun mm k => detachMem (trainGroup k mm)) m,
           tr ++ l.flatMap (fun _ => [MemOp.train, MemOp.detach])) := by
  intro l
  induction l with
  | nil => intro m tr; simp
  | cons k ks ih => intro m tr; simp [ih]

/-- Claim C1: in every epoch with memory enabled, the memory operations occur
in exactly the order init, (train, detach) per gradient-accumulation group,
backup of the train-memory before seen-node validation, backup of the
val-memory followed by restore of the train-memory between seen-node and
unseen-node validation, and restore of the val-memory after unseen-node
validation; consequently the epoch ends with the live memory equal to the
state at the end of seen-node validation. -/
theorem memory_epoch_protocol {M : Type} (initMem detachMem valEval nnValEval : M → M)
    (trainGroup : Nat → M → M) (numGroups : Nat) (m0 : M) :
    (runEpochMemory initMem detachMem valEval nnValEval trainGroup numGroups m0).2
      = MemOp.init ::
          (((List.range numGroups).flatMap fun _ => [MemOp.train, MemOp.detach])
            ++ [MemOp.backupTrain, MemOp.evalSeen, MemOp.backupVal, MemOp.restoreTrain,
                MemOp.evalUnseen, MemOp.restoreVal])
    ∧ (runEpochMemory initMem detachMem valEval nnValEval trainGroup numGroups m0).1
      = valEval ((List.range numGroups).foldl
          (fun m k => detachMem (trainGroup k m)) (initMem m0)) := by
  constructor <;> simp [runEpochMemory, epochFold_spec]

/-- Claim C2: the live memory at the moment the final model parameters are
saved equals the post-training val-memory snapshot taken before testing, even
though the unseen-node test evaluation mutates memory in between; the trace is
backup, restore, test evaluation, restore. -/
theorem saved_memory_is_val_snapshot {M : Type} (testEval : M → M) (m : M) :
    (runPostTraining testEval m).1 = m ∧
    (runPostTraining testEval m).2
      = [MemOp.backupVal, MemOp.restoreVal, MemOp.evalTest, MemOp.restoreVal] := by
  constructor <;> rfl

/-- Claim C3 counterexample: run one epoch in which the seen-node validation
evaluation computes threshold 0 and the unseen-node validation evaluation
computes threshold 1.  The claim says the test scoring reuses the seen-node
validation threshold (0); the code passes `thresholdOpt = 1`, the value the
unseen-node validation call overwrote it with at line 350. -/
theorem test_threshold_not_from_seen_validation :
    ¬ (testThreshold (fun _ => (0 : Nat)) (fun _ => 1) 1 0 = (fun _ => (0 : Nat)) 0) := by
  decide

/-- Claim C3 (amended): the decision threshold used for unseen-node test
scoring is the best threshold computed by the UNSEEN-node validation
evaluation of the final executed epoch, which overwrites the seen-node
validation threshold before it is ever used. -/
theorem test_threshold_from_unseen_validation {α : Type} (seenThr nnThr : Nat → α)
    (n : Nat) (t0 : α) (h : 0 < n) :
    testThreshold seenThr nnThr n t0 = nnThr (n - 1) := by
  cases n with
  | zero => exact absurd h (lt_irrefl 0)
  | succ m =>
    simp [testThreshold, runEpochsThreshold, List.range_succ, epochThreshold]

/-- Witness for the amended claim C3 at one epoch with concrete thresholds. -/
theorem test_threshold_from_unseen_validation_witness :
    0 < 1 ∧ testThreshold (fun _ => (0 : Nat)) (fun _ => 1) 1 0 = (fun _ => (1 : Nat)) (1 - 1) :=
  ⟨by decide, test_threshold_from_unseen_validation (fun _ => 0) (fun _ => 1) 1 0 (by decide)⟩

/-- Claim C6 (code bug witness): with the no-op tag `"None"`, the selector
returns `None` rather than an empty set, and the unconditional call
`apply_inductive_experiment(train_data, None)` at line 186 crashes with
`AttributeError` (because `tensor == None` is the Python bool `False`, which
has no `.any`), instead of leaving the training split unchanged. -/
theorem noop_tag_apply_crashes {α β : Type} (data : String)
    (sample : Finset Nat → Nat → List Nat) (train : EdgeData α β) :
    compute_inductive_nodes data sample "None" = Except.ok none ∧
    inductiveStep data sample "None" train
      = Except.error "AttributeError: bool object has no attribute any" := by
  constructor <;> rfl

/-- Claim C9: for every inductive-experiment tag other than `"None"`,
`"Exp1"`, `"Exp2"`, `"Exp3"`, the selector fails with the uncaught
`ValueError("Invalid experiment name.")`, and the exclusion step propagates
the error without modifying any split. -/
theorem unknown_tag_configuration_error {α β : Type} (data : String)
    (sample : Finset Nat → Nat → List Nat) (tag : String) (train : EdgeData α β)
    (h0 : tag ≠ "None") (h1 : tag ≠ "Exp1") (h2 : tag ≠ "Exp2") (h3 : tag ≠ "Exp3") :
    compute_inductive_nodes data sample tag = Except.error "Invalid experiment name." ∧
    inductiveStep data sample tag train = Except.error "Invalid experiment name." := by
  have hc : compute_inductive_nodes data sample tag
      = Except.error "Invalid experiment name." := by
    simp [compute_inductive_nodes, h0, h1, h2, h3]
  exact ⟨hc, by simp [inductiveStep, hc]⟩

/-- Witness for claim C9 at the concrete unknown tag `"Exp4"`. -/
theorem unknown_tag_configuration_error_witness :
    ("Exp4" : String) ≠ "None" ∧ ("Exp4" : String) ≠ "Exp1" ∧
    ("Exp4" : String) ≠ "Exp2" ∧ ("Exp4" : String) ≠ "Exp3" ∧
    (compute_inductive_nodes "OPTC" wSample "Exp4" = Except.error "Invalid experiment name." ∧
     inductiveStep "OPTC" wSample "Exp4" emptyData = Except.error "Invalid experiment name.") :=
  ⟨by decide, by decide, by decide, by decide,
   unknown_tag_configuration_error "OPTC" wSample "Exp4" emptyData
     (by decide) (by decide) (by decide) (by decide)⟩

/-- Selecting with the same mask from two lists of equal length yields lists
of equal length. -/
theorem maskSelect_length_eq {γ δ : Type} :
    ∀ (keep : List Bool) (l1 : List γ) (l2 : List δ), l1.length = l2.length →
      (maskSelect keep l1).length = (maskSelect keep l2).length := by
  intro keep
  induction keep with
  | nil => intro l1 l2 _; cases l1 <;> cases l2 <;> simp [maskSelect]
  | cons b bs ih =>
    intro l1 l2 h
    cases l1 with
    | nil => cases l2 with | nil => rfl | cons y ys => simp at h
    | cons x xs =>
      cases l2 with
      | nil => simp at h
      | cons y ys =>
        simp only [List.length_cons, Nat.add_right_cancel_iff] at h
        cases b <;> simp [maskSelect, ih xs ys h]

/-- Filtering the five parallel arrays with the keep mask equals filtering
their rows with the per-edge predicate. -/
theorem toRows_maskSelect {α β : Type} (sample : List Nat) :
    ∀ (ss ds : List Nat) (ts : List α) (ls : List β) (es : List Nat),
      ds.length = ss.length → ts.length = ss.length → ls.length = ss.length →
      es.length = ss.length →
      toRows (maskSelect (keepMask sample ss ds) ss) (maskSelect (keepMask sample ss ds) ds)
          (maskSelect (keepMask sample ss ds) ts) (maskSelect (keepMask sample ss ds) ls)
          (maskSelect (keepMask sample ss ds) es)
        = (toRows ss ds ts ls es).filter (keepEdge sample) := by
  intro ss
  induction ss with
  | nil =>
    intro ds ts ls es h1 h2 h3 h4
    rw [List.length_nil, List.length_eq_zero] at h1 h2 h3 h4
    subst h1; subst h2; subst h3; subst h4
    simp [keepMask, maskSelect, toRows]
  | cons s ss ih =>
    intro ds ts ls es h1 h2 h3 h4
    cases ds with
    | nil => simp at h1
    | cons dd ds =>
      cases ts with
      | nil => simp at h2
      | cons t ts =>
        cases ls with
        | nil => simp at h3
        | cons lb ls =>
          cases es with
          | nil => simp at h4
          | cons e es =>
            simp only [List.length_cons, Nat.add_right_cancel_iff] at h1 h2 h3 h4
            have hmask : keepMask sample (s :: ss) (dd :: ds)
                = (!(sample.any (· == s) || sample.any (· == dd))) :: keepMask sample ss ds := rfl
            rw [hmask]
            cases hb : !(sample.any (· == s) || sample.any (· == dd)) with
            | false =>
              simp only [maskSelect, if_neg Bool.false_ne_true, toRows, List.filter_cons]
              have hke : keepEdge sample (⟨s, dd, t, lb, e⟩ : EdgeRow α β) = false := hb
              simp [hke, ih ds ts ls es h1 h2 h3 h4]
            | true =>
              simp only [maskSelect, if_pos rfl, toRows, List.filter_cons]
              have hke : keepEdge sample (⟨s, dd, t, lb, e⟩ : EdgeRow α β) = true := hb
              simp [hke, ih ds ts ls es h1 h2 h3 h4]

/-- Claim C5: `apply_inductive_experiment` drops exactly the edges with an
endpoint in the excluded collection; all five parallel arrays are filtered by
the same mask, so the output is aligned, every retained edge has neither
endpoint excluded, and the relative order of retained edges is preserved. -/
theorem apply_exclusion_filter_spec {α β : Type} (sample : List Nat) (d : EdgeData α β)
    (h : d.Aligned) :
    dataRows (apply_inductive_experiment d sample) = (dataRows d).filter (keepEdge sample) ∧
    (apply_inductive_experiment d sample).Aligned ∧
    (∀ r ∈ dataRows (apply_inductive_experiment d sample),
        r.source ∉ sample ∧ r.destination ∉ sample) ∧
    (dataRows (apply_inductive_experiment d sample)).Sublist (dataRows d) := by
  obtain ⟨h1, h2, h3, h4⟩ := h
  have hrows : dataRows (apply_inductive_experiment d sample)
      = (dataRows d).filter (keepEdge sample) :=
    toRows_maskSelect sample d.sources d.destinations d.timestamps d.labels d.edge_idxs
      h1 h2 h3 h4
  refine ⟨hrows, ⟨?_, ?_, ?_, ?_⟩, ?_, ?_⟩
  · exact maskSelect_length_eq _ _ _ h1
  · exact maskSelect_length_eq _ _ _ h2
  · exact maskSelect_length_eq _ _ _ h3
  · exact maskSelect_length_eq _ _ _ h4
  · intro r hr
    rw [hrows] at hr
    have hk := List.of_mem_filter hr
    simp only [keepEdge, Bool.not_eq_true', Bool.or_eq_false_iff,
      List.any_eq_false, beq_iff_eq] at hk
    exact ⟨fun hs => hk.1 _ hs rfl, fun hd => hk.2 _ hd rfl⟩
  · rw [hrows]
    exact List.filter_sublist _

/-- Witness for claim C5 on a concrete aligned split and excluded collection. -/
theorem apply_exclusion_filter_spec_witness :
    wData.Aligned ∧
    (dataRows (apply_inductive_experiment wData [2, 4])
        = (dataRows wData).filter (keepEdge [2, 4]) ∧
     (apply_inductive_experiment wData [2, 4]).Aligned ∧
     (∀ r ∈ dataRows (apply_inductive_experiment wData [2, 4]),
         r.source ∉ [2, 4] ∧ r.destination ∉ [2, 4]) ∧
     (dataRows (apply_inductive_experiment wData [2, 4])).Sublist (dataRows wData)) :=
  ⟨⟨rfl, rfl, rfl, rfl⟩,
   apply_exclusion_filter_spec [2, 4] wData ⟨rfl, rfl, rfl, rfl⟩⟩

/-- Ceiling division covers: `n ≤ ceil(n / s) * s`. -/
theorem le_ceil_mul (n s : Nat) (hs : 0 < s) : n ≤ ((n + s - 1) / s) * s := by
  have h := Nat.div_add_mod (n + s - 1) s
  have h2 : (n + s - 1) % s < s := Nat.mod_lt _ hs
  have h3 : s * ((n + s - 1) / s) = ((n + s - 1) / s) * s := Nat.mul_comm _ _
  omega

/-- The inner accumulation loop of lines 280-287, restricted by the
`continue` of line 284, visits exactly the batch indices `[k, nb)` capped at
`k + bpe`. -/
theorem filterMap_range_if (nb k : Nat) :
    ∀ b, (List.range b).filterMap (fun j => if k + j < nb then some (k + j) else none)
      = List.range' k (min b (nb - k)) := by
  intro b
  induction b with
  | zero => simp
  | succ b ih =>
    rw [List.range_succ, List.filterMap_append, ih]
    by_cases hc : k + b < nb
    · have hm1 : min b (nb - k) = b := by omega
      have hm2 : min (b + 1) (nb - k) = b + 1 := by omega
      simp [hc, hm1, hm2, List.range'_1_concat]
    · have hm : min (b + 1) (nb - k) = min b (nb - k) := by omega
      simp [hc, hm]

/-- The grouped outer loop visits every batch index below `nb` exactly once,
in increasing order. -/
theorem groups_cover (nb bpe : Nat) :
    ∀ (t k : Nat), nb ≤ k + t * bpe →
      (List.range' k t bpe).flatMap (fun g =>
          (List.range bpe).filterMap (fun j => if g + j < nb then some (g + j) else none))
        = List.range' k (nb - k) := by
  intro t
  induction t with
  | zero =>
    intro k h
    have hz : nb - k = 0 := by omega
    simp [hz]
  | succ t ih =>
    intro k h
    rw [List.range'_succ, List.flatMap_cons, filterMap_range_if nb k bpe,
      ih (k + bpe) (by rw [Nat.succ_mul] at h; omega)]
    by_cases hc : nb - k ≤ bpe
    · have hh1 : min bpe (nb - k) = nb - k := by omega
      have hh2 : nb - (k + bpe) = 0 := by omega
      simp [hh1, hh2]
    · have hh1 : min bpe (nb - k) = bpe := by omega
      rw [hh1, List.range'_append_1]
      congr 1
      omega

/-- Concatenating the contiguous batch slices of lines 286-287 over batch
indices `[i0, i0 + t)` yields the contiguous edge index range. -/
theorem slices_cover (num_instance BATCH_SIZE : Nat) :
    ∀ (t i0 : Nat), num_instance ≤ (i0 + t) * BATCH_SIZE →
      (List.range' i0 t).flatMap (batchSlice num_instance BATCH_SIZE)
        = List.range' (i0 * BATCH_SIZE) (num_instance - i0 * BATCH_SIZE) := by
  intro t
  induction t with
  | zero =>
    intro i0 h
    have hz : num_instance - i0 * BATCH_SIZE = 0 := by
      have he : (i0 + 0) * BATCH_SIZE = i0 * BATCH_SIZE := by ring
      omega
    simp [hz]
  | succ t ih =>
    intro i0 h
    have hsucc : (i0 + (t + 1)) * BATCH_SIZE = ((i0 + 1) + t) * BATCH_SIZE := by ring
    have he : (i0 + 1) * BATCH_SIZE = i0 * BATCH_SIZE + BATCH_SIZE := by ring
    rw [List.range'_succ, List.flatMap_cons, ih (i0 + 1) (by omega)]
    by_cases hc : num_instance ≤ i0 * BATCH_SIZE + BATCH_SIZE
    · have hh1 : min num_instance (i0 * BATCH_SIZE + BATCH_SIZE) - i0 * BATCH_SIZE
          = num_instance - i0 * BATCH_SIZE := by omega
      have hh2 : num_instance - (i0 + 1) * BATCH_SIZE = 0 := by omega
      simp [batchSlice, hh1, hh2]
    · have hh1 : min num_instance (i0 * BATCH_SIZE + BATCH_SIZE) - i0 * BATCH_SIZE
          = BATCH_SIZE := by omega
      have hs : batchSlice num_instance BATCH_SIZE i0
          = List.range' (i0 * BATCH_SIZE) BATCH_SIZE := by
        simp [batchSlice, hh1]
      rw [hs, he, List.range'_append_1]
      congr 1
      omega

/-- Claim C7: each training epoch processes the `N` training edges as
`ceil(N / batch_size)` contiguous batches in original order, batch `i`
covering `[i * batch_size, min(N, (i+1) * batch_size))`; the
gradient-accumulation grouping with its skip of out-of-range members visits
every batch index exactly once in order, hence every training edge exactly
once in order. -/
theorem training_batches_partition (num_instance BATCH_SIZE bpe : Nat)
    (hBS : 0 < BATCH_SIZE) (hbpe : 0 < bpe) :
    processedBatchIndices (num_batch num_instance BATCH_SIZE) bpe
      = List.range (num_batch num_instance BATCH_SIZE) ∧
    processedEdgeIndices num_instance BATCH_SIZE bpe = List.range num_instance := by
  have hceil1 : num_batch num_instance BATCH_SIZE
      ≤ 0 + ((num_batch num_instance BATCH_SIZE + bpe - 1) / bpe) * bpe := by
    have hcm := le_ceil_mul (num_batch num_instance BATCH_SIZE) bpe hbpe
    omega
  have hb : processedBatchIndices (num_batch num_instance BATCH_SIZE) bpe
      = List.range (num_batch num_instance BATCH_SIZE) := by
    have hg := groups_cover (num_batch num_instance BATCH_SIZE) bpe
      ((num_batch num_instance BATCH_SIZE + bpe - 1) / bpe) 0 hceil1
    simpa [processedBatchIndices, groupStarts, List.range_eq_range'] using hg
  refine ⟨hb, ?_⟩
  have hceil2 : num_instance ≤ (0 + num_batch num_instance BATCH_SIZE) * BATCH_SIZE := by
    simp only [num_batch, Nat.zero_add]
    exact le_ceil_mul num_instance BATCH_SIZE hBS
  have hsl := slices_cover num_instance BATCH_SIZE (num_batch num_instance BATCH_SIZE) 0 hceil2
  rw [processedEdgeIndices, hb, List.range_eq_range', List.range_eq_range']
  simpa using hsl

/-- Witness for claim C7 at five edges, batch size two, accumulation two. -/
theorem training_batches_partition_witness :
    0 < 2 ∧ 0 < 2 ∧
    (processedBatchIndices (num_batch 5 2) 2 = List.range (num_batch 5 2) ∧
     processedEdgeIndices 5 2 2 = List.range 5) :=
  ⟨by decide, by decide, training_batches_partition 5 2 2 (by decide) (by decide)⟩

/-- Closed form of the run state after `n` completed epochs. -/
theorem runEpochsResults_spec {α : Type} (valAp nnValAp meanLoss epochTime totalTime : Nat → α) :
    ∀ n, runEpochsResults valAp nnValAp meanLoss epochTime totalTime n
      = { val_aps := (List.range n).map valAp
          new_nodes_val_aps := (List.range n).map nnValAp
          train_losses := (List.range n).map meanLoss
          epoch_times := (List.range n).map epochTime
          total_epoch_times := (List.range n).map totalTime
          writes := (List.range n).map
            (artifactAt valAp nnValAp meanLoss epochTime totalTime) } := by
  intro n
  induction n with
  | zero => rfl
  | succ n ih =>
    have hstep : runEpochsResults valAp nnValAp meanLoss epochTime totalTime (n + 1)
        = epochRecord valAp nnValAp meanLoss epochTime totalTime
            (runEpochsResults valAp nnValAp meanLoss epochTime totalTime n) n := by
      rw [runEpochsResults, runEpochsResults, List.range_succ, List.foldl_append]
      rfl
    rw [hstep, ih]
    simp [epochRecord, artifactAt, List.range_succ]

/-- Claim C8 counterexample: in a two-epoch run, the write performed during
epoch 0 (an epoch that does not end the run) should, per the claim, contain
one entry per completed epoch in every persisted series, and the write during
epoch 1 two entries; but `total_epoch_times` is appended only after the
`pickle.dump` (line 373 versus lines 364-370), so the persisted total-timing
series hold zero and one entries instead of one and two. -/
theorem results_artifact_total_times_ce :
    ((runEpochsResults (fun _ => (0 : Nat)) (fun _ => 0) (fun _ => 0) (fun _ => 0)
        (fun _ => 0) 2).writes).map (fun a => a.total_epoch_times.length) ≠ [1, 2] := by
  decide

/-- Claim C8 (amended): at the write performed during epoch `e` the persisted
AP, new-node AP, loss and per-epoch-time series each contain exactly one
entry per completed epoch (`e + 1` entries), while the persisted
total-epoch-time series lags one epoch behind (`e` entries); AUC is not part
of the artifact at all (the dictionary of lines 364-370 has no AUC key). -/
theorem results_artifact_series_lengths {α : Type}
    (valAp nnValAp meanLoss epochTime totalTime : Nat → α) (n e : Nat) (he : e < n) :
    ((runEpochsResults valAp nnValAp meanLoss epochTime totalTime n).writes)[e]?
      = some (artifactAt valAp nnValAp meanLoss epochTime totalTime e) ∧
    (artifactAt valAp nnValAp meanLoss epochTime totalTime e).val_aps.length = e + 1 ∧
    (artifactAt valAp nnValAp meanLoss epochTime totalTime e).new_nodes_val_aps.length = e + 1 ∧
    (artifactAt valAp nnValAp meanLoss epochTime totalTime e).train_losses.length = e + 1 ∧
    (artifactAt valAp nnValAp meanLoss epochTime totalTime e).epoch_times.length = e + 1 ∧
    (artifactAt valAp nnValAp meanLoss epochTime totalTime e).total_epoch_times.length = e := by
  refine ⟨?_, by simp [artifactAt], by simp [artifactAt], by simp [artifactAt],
    by simp [artifactAt], by simp [artifactAt]⟩
  rw [runEpochsResults_spec]
  simp [List.getElem?_map, List.getElem?_range, he]

/-- Witness for the amended claim C8 at one epoch, first write. -/
theorem results_artifact_series_lengths_witness :
    0 < 1 ∧
    (((runEpochsResults (fun e => e) (fun e => e) (fun e => e) (fun e => e)
          (fun e => (e : Nat)) 1).writes)[0]?
        = some (artifactAt (fun e => e) (fun e => e) (fun e => e) (fun e => e)
            (fun e => (e : Nat)) 0) ∧
     (artifactAt (fun e => e) (fun e => e) (fun e => e) (fun e => e)
         (fun e => (e : Nat)) 0).val_aps.length = 0 + 1 ∧
     (artifactAt (fun e => e) (fun e => e) (fun e => e) (fun e => e)
         (fun e => (e : Nat)) 0).new_nodes_val_aps.length = 0 + 1 ∧
     (artifactAt (fun e => e) (fun e => e) (fun e => e) (fun e => e)
         (fun e => (e : Nat)) 0).train_losses.length = 0 + 1 ∧
     (artifactAt (fun e => e) (fun e => e) (fun e => e) (fun e => e)
         (fun e => (e : Nat)) 0).epoch_times.length = 0 + 1 ∧
     (artifactAt (fun e => e) (fun e => e) (fun e => e) (fun e => e)
         (fun e => (e : Nat)) 0).total_epoch_times.length = 0) :=
  ⟨by decide,
   results_artifact_series_lengths (fun e => e) (fun e => e) (fun e => e) (fun e => e)
     (fun e => (e : Nat)) 1 0 (by decide)⟩

/-- Both datasets' malicious source nodes lie in `[1, nb_nodes)`. -/
theorem malicious_in_range (data : String) :
    ∀ m ∈ malicious_src_nodes data, 1 ≤ m ∧ m < nb_nodes data := by
  by_cases hd : data = "OPTC" <;>
    simp [malicious_src_nodes, nb_nodes, hd, OPTC_MALICIOUS_SRC_NODES,
      LANL_MALICIOUS_SRC_NODES]

/-- For both datasets and the sensitive-inclusive tags, the malicious list is
shorter than the requested draw size. -/
theorem malicious_length_le_percent (data tag : String)
    (htag : tag = "Exp2" ∨ tag = "Exp3") :
    (malicious_src_nodes data).length ≤ percentFor data tag := by
  rcases htag with h | h <;> subst h <;> by_cases hd : data = "OPTC" <;>
    simp [malicious_src_nodes, nb_nodes, percentFor, percent30, percent50, hd,
      OPTC_MALICIOUS_SRC_NODES, LANL_MALICIOUS_SRC_NODES]

/-- Overwriting a prefix shorter than the list preserves its length. -/
theorem overwriteFirst_length (repl l : List Nat) (h : repl.length ≤ l.length) :
    (overwriteFirst repl l).length = l.length := by
  simp only [overwriteFirst, List.length_append, List.length_drop]
  omega

/-- Elements of the overwritten list come from the replacement or the
original draw. -/
theorem mem_of_mem_overwriteFirst {x : Nat} {repl l : List Nat}
    (h : x ∈ overwriteFirst repl l) : x ∈ repl ∨ x ∈ l := by
  rcases List.mem_append.mp h with h | h
  · exact Or.inl h
  · exact Or.inr (List.drop_subset _ _ h)

/-- Claim C4 (amended): for every recognized non-noop tag and dataset, and
every outcome of `random.sample` meeting its contract, the selected
collection has exactly `floor(n * p)` elements counted with multiplicity, all
in `[1, n)`; for the disjoint variant (`Exp1`) the elements are additionally
pairwise distinct and contain no malicious node, and for the
sensitive-inclusive variants (`Exp2`, `Exp3`) every malicious node id occurs
in the collection (the forced prefix overwrite can duplicate ids, so
distinctness of the selected collection is not guaranteed there). -/
theorem inductive_sample_spec_amended (data tag : String)
    (sample : Finset Nat → Nat → List Nat)
    (htag : tag = "Exp1" ∨ tag = "Exp2" ∨ tag = "Exp3")
    (hdraw : SampleDraw (availableFor data tag) (percentFor data tag)
      (sample (availableFor data tag) (percentFor data tag))) :
    ∃ l, compute_inductive_nodes data sample tag = Except.ok (some l) ∧
      l.length = percentFor data tag ∧
      (∀ x ∈ l, 1 ≤ x ∧ x < nb_nodes data) ∧
      (tag = "Exp1" → (l.Nodup ∧ ∀ m ∈ malicious_src_nodes data, m ∉ l)) ∧
      ((tag = "Exp2" ∨ tag = "Exp3") → ∀ m ∈ malicious_src_nodes data, m ∈ l) := by
  rcases htag with h | h | h
  · subst h
    have hav : availableFor data "Exp1" = availableNodesExp1 data := by
      simp [availableFor]
    have hpc : percentFor data "Exp1" = percent30 (nb_nodes data) := by
      simp [percentFor]
    rw [hav, hpc] at hdraw
    obtain ⟨hnd, hlen, hmem⟩ := hdraw
    refine ⟨sample (availableNodesExp1 data) (percent30 (nb_nodes data)),
      by simp [compute_inductive_nodes], by rw [hpc]; exact hlen, ?_, ?_, ?_⟩
    · intro x hx
      have hx2 := hmem x hx
      rw [availableNodesExp1, Finset.mem_sdiff, Finset.mem_Ico] at hx2
      exact hx2.1
    · intro _
      refine ⟨hnd, fun m hm hcon => ?_⟩
      have hx2 := hmem m hcon
      rw [availableNodesExp1, Finset.mem_sdiff] at hx2
      exact hx2.2 (List.mem_toFinset.mpr hm)
    · intro hcon
      rcases hcon with hcon | hcon <;> exact absurd hcon (by decide)
  · subst h
    have hav : availableFor data "Exp2" = availableNodesFull data := by
      simp [availableFor]
    have hpc : percentFor data "Exp2" = percent30 (nb_nodes data) := by
      simp [percentFor]
    rw [hav, hpc] at hdraw
    obtain ⟨hnd, hlen, hmem⟩ := hdraw
    have hle : (malicious_src_nodes data).length
        ≤ (sample (availableNodesFull data) (percent30 (nb_nodes data))).length := by
      rw [hlen]
      have := malicious_length_le_percent data "Exp2" (Or.inl rfl)
      rwa [hpc] at this
    refine ⟨overwriteFirst (malicious_src_nodes data)
        (sample (availableNodesFull data) (percent30 (nb_nodes data))),
      by simp [compute_inductive_nodes],
      by rw [hpc, overwriteFirst_length _ _ hle]; exact hlen, ?_, ?_, ?_⟩
    · intro x hx
      rcases mem_of_mem_overwriteFirst hx with hx | hx
      · exact malicious_in_range data x hx
      · have hx2 := hmem x hx
        rw [availableNodesFull, Finset.mem_Ico] at hx2
        exact hx2
    · intro hcon
      exact absurd hcon (by decide)
    · intro _ m hm
      exact List.mem_append_left _ hm
  · subst h
    have hav : availableFor data "Exp3" = availableNodesFull data := by
      simp [availableFor]
    have hpc : percentFor data "Exp3" = percent50 (nb_nodes data) := by
      simp [percentFor]
    rw [hav, hpc] at hdraw
    obtain ⟨hnd, hlen, hmem⟩ := hdraw
    have hle : (malicious_src_nodes data).length
        ≤ (sample (availableNodesFull data) (percent50 (nb_nodes data))).length := by
      rw [hlen]
      have := malicious_length_le_percent data "Exp3" (Or.inr rfl)
      rwa [hpc] at this
    refine ⟨overwriteFirst (malicious_src_nodes data)
        (sample (availableNodesFull data) (percent50 (nb_nodes data))),
      by simp [compute_inductive_nodes],
      by rw [hpc, overwriteFirst_length _ _ hle]; exact hlen, ?_, ?_, ?_⟩
    · intro x hx
      rcases mem_of_mem_overwriteFirst hx with hx | hx
      · exact malicious_in_range data x hx
      · have hx2 := hmem x hx
        rw [availableNodesFull, Finset.mem_Ico] at hx2
        exact hx2
    · intro hcon
      exact absurd hcon (by decide)
    · intro _ m hm
      exact List.mem_append_left _ hm

/-- The deterministic stand-in draw meets the `random.sample` contract for
the OPTC `Exp2` configuration. -/
theorem wSampleDraw_OPTC_Exp2 :
    SampleDraw (availableFor "OPTC" "Exp2") (percentFor "OPTC" "Exp2")
      (wSample (availableFor "OPTC" "Exp2") (percentFor "OPTC" "Exp2")) := by
  have hpc : percentFor "OPTC" "Exp2" = 292 := rfl
  refine ⟨List.nodup_range' 1 _, by simp [wSample], ?_⟩
  intro x hx
  rw [wSample, hpc, List.mem_range'_1] at hx
  have hav : availableFor "OPTC" "Exp2" = Finset.Ico 1 975 := rfl
  rw [hav, Finset.mem_Ico]
  omega

/-- Witness for the amended claim C4 at the OPTC `Exp2` configuration with
the deterministic stand-in draw. -/
theorem inductive_sample_spec_amended_witness :
    (("Exp2" : String) = "Exp1" ∨ ("Exp2" : String) = "Exp2" ∨ ("Exp2" : String) = "Exp3") ∧
    SampleDraw (availableFor "OPTC" "Exp2") (percentFor "OPTC" "Exp2")
      (wSample (availableFor "OPTC" "Exp2") (percentFor "OPTC" "Exp2")) ∧
    (∃ l, compute_inductive_nodes "OPTC" wSample "Exp2" = Except.ok (some l) ∧
      l.length = percentFor "OPTC" "Exp2" ∧
      (∀ x ∈ l, 1 ≤ x ∧ x < nb_nodes "OPTC") ∧
      (("Exp2" : String) = "Exp1" →
        (l.Nodup ∧ ∀ m ∈ malicious_src_nodes "OPTC", m ∉ l)) ∧
      ((("Exp2" : String) = "Exp2" ∨ ("Exp2" : String) = "Exp3") →
        ∀ m ∈ malicious_src_nodes "OPTC", m ∈ l)) :=
  ⟨Or.inr (Or.inl rfl), wSampleDraw_OPTC_Exp2,
   inductive_sample_spec_amended "OPTC" "Exp2" wSample (Or.inr (Or.inl rfl))
     wSampleDraw_OPTC_Exp2⟩

/-- The counterexample draw splits as a three-element head plus a tail. -/
theorem ceDraw_split :
    ceDraw = List.range' 1 3 ++ (List.range' 4 288 ++ [402]) := by
  rw [ceDraw, ← List.append_assoc]
  have hsplit : List.range' 1 3 ++ List.range' 4 288 = List.range' 1 291 := by
    simpa using List.range'_append_1 1 3 288
  rw [hsplit]

/-- Dropping the overwritten prefix of the counterexample draw leaves a tail
that still contains the malicious node 402. -/
theorem ceDraw_drop_three : ceDraw.drop 3 = List.range' 4 288 ++ [402] := by
  rw [ceDraw_split]
  exact List.drop_left' (by simp)

/-- The counterexample draw meets the `random.sample` contract for the OPTC
`Exp2` configuration. -/
theorem ceDraw_valid :
    SampleDraw (availableFor "OPTC" "Exp2") (percentFor "OPTC" "Exp2")
      (ceSample (availableFor "OPTC" "Exp2") (percentFor "OPTC" "Exp2")) := by
  have hpc : percentFor "OPTC" "Exp2" = 292 := rfl
  have hce : ceSample (availableFor "OPTC" "Exp2") (percentFor "OPTC" "Exp2") = ceDraw := rfl
  rw [hce, hpc]
  refine ⟨?_, by simp [ceDraw], ?_⟩
  · rw [ceDraw, List.nodup_append]
    refine ⟨List.nodup_range' 1 _, by simp, ?_⟩
    intro a ha hb
    rw [List.mem_range'_1] at ha
    simp only [List.mem_singleton] at hb
    omega
  · intro x hx
    have hav : availableFor "OPTC" "Exp2" = Finset.Ico 1 975 := rfl
    rw [hav, Finset.mem_Ico]
    rw [ceDraw] at hx
    rcases List.mem_append.mp hx with hx | hx
    · rw [List.mem_range'_1] at hx
      omega
    · simp only [List.mem_singleton] at hx
      omega

/-- Claim C4 counterexample: on the OPTC dataset with tag `Exp2` there is a
valid `random.sample` outcome (the 291 smallest candidate ids followed by the
malicious node 402) for which the selected collection does NOT have
`floor(975 * 0.3) = 292` distinct elements: the forced overwrite of the first
three positions with `[201, 402, 501]` duplicates 402 (and 201), so the
collection has 292 entries but fewer distinct ids. -/
theorem inductive_sample_distinctness_ce :
    SampleDraw (availableFor "OPTC" "Exp2") (percentFor "OPTC" "Exp2")
      (ceSample (availableFor "OPTC" "Exp2") (percentFor "OPTC" "Exp2")) ∧
    compute_inductive_nodes "OPTC" ceSample "Exp2"
      = Except.ok (some (overwriteFirst OPTC_MALICIOUS_SRC_NODES ceDraw)) ∧
    (overwriteFirst OPTC_MALICIOUS_SRC_NODES ceDraw).length = percentFor "OPTC" "Exp2" ∧
    (overwriteFirst OPTC_MALICIOUS_SRC_NODES ceDraw).toFinset.card
      ≠ percentFor "OPTC" "Exp2" := by
  have hpc : percentFor "OPTC" "Exp2" = 292 := rfl
  have hdlen : ceDraw.length = 292 := by
    simp [ceDraw]
  have hlen : (overwriteFirst OPTC_MALICIOUS_SRC_NODES ceDraw).length = 292 := by
    rw [overwriteFirst_length _ _ (by rw [hdlen]; simp [OPTC_MALICIOUS_SRC_NODES])]
    exact hdlen
  have hdup : ¬ (overwriteFirst OPTC_MALICIOUS_SRC_NODES ceDraw).Nodup := by
    intro h
    rw [overwriteFirst, List.nodup_append] at h
    have h402r : (402 : Nat) ∈ ceDraw.drop OPTC_MALICIOUS_SRC_NODES.length := by
      have hl3 : OPTC_MALICIOUS_SRC_NODES.length = 3 := rfl
      rw [hl3, ceDraw_drop_three]
      exact List.mem_append_right _ (by simp)
    exact h.2.2 (show (402 : Nat) ∈ OPTC_MALICIOUS_SRC_NODES by decide) h402r
  refine ⟨ceDraw_valid, rfl, by rw [hlen, hpc], ?_⟩
  intro hcard
  rw [hpc] at hcard
  have hd1 : (overwriteFirst OPTC_MALICIOUS_SRC_NODES ceDraw).dedup.length
      = (overwriteFirst OPTC_MALICIOUS_SRC_NODES ceDraw).length := by
    rw [← List.card_toFinset, hcard, hlen]
  have hd2 : (overwriteFirst OPTC_MALICIOUS_SRC_NODES ceDraw).dedup
      = overwriteFirst OPTC_MALICIOUS_SRC_NODES ceDraw :=
    (List.dedup_sublist _).eq_of_length hd1
  exact hdup (List.dedup_eq_self.mp hd2)

/-- A left fold by `max` dominates the seed and every element. -/
theorem le_foldl_max :
    ∀ (l : List Nat) (a : Nat), a ≤ l.foldl max a ∧ ∀ x ∈ l, x ≤ l.foldl max a := by
  intro l
  induction l with
  | nil => intro a; exact ⟨le_refl a, by simp⟩
  | cons y ys ih =>
    intro a
    constructor
    · exact le_trans (le_max_left a y) (ih (max a y)).1
    · intro x hx
      rcases List.mem_cons.mp hx with h | h
      · subst h; exact le_trans (le_max_right a x) (ih (max a x)).1
      · exact (ih (max a y)).2 x h

/-- Claim C10: on a dataframe whose source and destination id columns each
pass the contiguity assertion, bipartite `reindex` returns a dataframe of the
same length and row order with `u' = u + 1`, `i' = i + (max u + 1) + 1`,
`idx' = idx + 1` per row, and every reindexed destination id exceeds every
reindexed source id; when either contiguity assertion fails, `reindex` fails
the assertion instead of returning. -/
theorem reindex_spec {α : Type} (df : List (RawRow α)) :
    (¬ (contiguousCheck (df.map RawRow.u) = true ∧
        contiguousCheck (df.map RawRow.i) = true) →
      reindex df true = none) ∧
    ((contiguousCheck (df.map RawRow.u) = true ∧
      contiguousCheck (df.map RawRow.i) = true) →
      reindex df true = some (df.map (reindexRow (colMax (df.map RawRow.u) + 1))) ∧
      (df.map (reindexRow (colMax (df.map RawRow.u) + 1))).length = df.length ∧
      (∀ r1 ∈ df.map (reindexRow (colMax (df.map RawRow.u) + 1)),
       ∀ r2 ∈ df.map (reindexRow (colMax (df.map RawRow.u) + 1)),
         r1.u < r2.i)) := by
  constructor
  · intro h
    cases hA : contiguousCheck (df.map RawRow.u) <;>
      cases hB : contiguousCheck (df.map RawRow.i) <;>
      simp_all [reindex]
  · rintro ⟨hA, hB⟩
    refine ⟨by simp [reindex, hA, hB], by simp, ?_⟩
    intro r1 h1 r2 h2
    rcases List.mem_map.mp h1 with ⟨a, ha, rfl⟩
    rcases List.mem_map.mp h2 with ⟨b, hb, rfl⟩
    have hau : a.u ≤ colMax (df.map RawRow.u) :=
      (le_foldl_max (df.map RawRow.u) 0).2 a.u (List.mem_map_of_mem RawRow.u ha)
    simp only [reindexRow]
    omega

/-- Witness for claim C10 on a concrete contiguous two-row dataframe. -/
theorem reindex_spec_witness :
    (contiguousCheck (wDf.map RawRow.u) = true ∧
     contiguousCheck (wDf.map RawRow.i) = true) ∧
    (reindex wDf true = some (wDf.map (reindexRow (colMax (wDf.map RawRow.u) + 1))) ∧
     (wDf.map (reindexRow (colMax (wDf.map RawRow.u) + 1))).length = wDf.length ∧
     (∀ r1 ∈ wDf.map (reindexRow (colMax (wDf.map RawRow.u) + 1)),
      ∀ r2 ∈ wDf.map (reindexRow (colMax (wDf.map RawRow.u) + 1)), r1.u < r2.i)) :=
  ⟨by decide, (reindex_spec wDf).2 (by decide)⟩

end Jbeil
